import Mathlib

/-!
Verification development for the equal-meeting-point solver in
src/streamlit_version_app.py.

The embedding covers the solver core: the travel-time client
(get_travel_time_with_routes, lines 26-93) with its session cache, the
per-candidate evaluation loop (lines 211-226) and the variance-minimising
selection (lines 227-233).  The external HTTP provider is modelled as an
oracle mapping the index of a network attempt to its outcome; durations are
natural numbers of minutes and the mean/variance arithmetic is carried out
exactly in the rationals.
-/

/-- One leg of a provider journey: departure point name, arrival point name
and the list of route option names (empty when the leg is a walk). -/
structure Leg where
  departure : String
  arrival : String
  routeOptions : List String
deriving DecidableEq, Repr

/-- A journey option returned by the provider: total duration in minutes and
its legs. -/
structure Journey where
  duration : Nat
  legs : List Leg
deriving DecidableEq, Repr

/-- Outcome of one network request to the journey provider: a timeout
(requests.exceptions.Timeout), any other exception (line 91), or a parsed
response carrying the list of journeys. -/
inductive HttpOutcome where
  | timeout : HttpOutcome
  | error : HttpOutcome
  | ok : List Journey → HttpOutcome
deriving DecidableEq, Repr

/-- A rendered route leg as built at lines 70-75 of the source: departure
name, arrival name and line name, the latter being "Walking" when the leg
has no route options. -/
structure RouteDetail where
  fromName : String
  toName : String
  line : String
deriving DecidableEq, Repr

/-- Lines 71-75: turn a provider leg into a displayed route detail. -/
def legToDetail (leg : Leg) : RouteDetail :=
  { fromName := leg.departure
    toName := leg.arrival
    line := match leg.routeOptions with
      | [] => "Walking"
      | n :: _ => n }

/-- Line 58: number of interchanges of a journey, len(legs) - 1 computed in
the integers exactly as Python does. -/
def numChanges (j : Journey) : Int := (j.legs.length : Int) - 1

/-- Lines 53-61: scan the journeys keeping the one with strictly fewer
changes than the best so far, so the first minimal journey wins. -/
def bestJourney (js : List Journey) : Option Journey :=
  js.foldl (fun best j =>
    match best with
    | none => some j
    | some b => if numChanges j < numChanges b then some j else best) none

/-- An entry of the in-memory session cache st.session_state.api_cache.  The
insertion time is ghost data recorded only so that temporal properties can be
stated about the cache; the source stores and reads just the key and the
(duration, route) pair and never consults any timestamp. -/
structure CacheEntry where
  key : String
  duration : Nat
  route : List RouteDetail
  insertedAt : Nat
deriving DecidableEq, Repr

/-- The session cache is an association list; a fresh session starts empty. -/
abbrev Cache := List CacheEntry

/-- Line 27: cache_key = start followed by an underscore followed by end. -/
def cache_key (startId endId : String) : String := startId ++ "_" ++ endId

/-- Line 29: dictionary lookup in the session cache. -/
def cacheFind (k : String) (c : Cache) : Option CacheEntry :=
  c.find? (fun e => e.key == k)

/-- Line 81: dictionary insertion; the new binding shadows any older binding
of the same key for lookups. -/
def cachePut (k : String) (d : Nat) (rt : List RouteDetail) (now : Nat) (c : Cache) : Cache :=
  { key := k, duration := d, route := rt, insertedAt := now } :: c

/-- The observable effect of one call to get_travel_time_with_routes: the
returned (duration, route) pair, the session cache afterwards, the number of
network attempts made and the number of seconds slept between attempts. -/
structure FetchOut where
  duration : Option Nat
  route : List RouteDetail
  cache : Cache
  calls : Nat
  sleeps : Nat
deriving DecidableEq, Repr

/-- Lines 26-93: the travel-time client.  It consults the session cache
first, then refuses self journeys, then issues one network request; on a
timeout it sleeps one second and retries with the counter decreased, on any
other error or an empty journey list it fails, and on success it picks the
journey with fewest changes, renders the route, caches the result when the
duration is truthy and returns it.  The provider oracle maps the index of a
network attempt to its outcome and ci is the index of the next attempt. -/
def get_travel_time_with_routes (startId endId : String) (provider : Nat → HttpOutcome)
    (now : Nat) (cache : Cache) (ci : Nat) (retries : Nat) : FetchOut :=
  match cacheFind (cache_key startId endId) cache with
  | some e => { duration := some e.duration, route := e.route, cache := cache, calls := 0, sleeps := 0 }
  | none =>
    if startId = endId then
      { duration := none, route := [], cache := cache, calls := 0, sleeps := 0 }
    else
      match provider ci, retries with
      | .timeout, r + 1 =>
        let o := get_travel_time_with_routes startId endId provider now cache (ci + 1) r
        { o with calls := o.calls + 1, sleeps := o.sleeps + 1 }
      | .timeout, 0 => { duration := none, route := [], cache := cache, calls := 1, sleeps := 0 }
      | .error, _ => { duration := none, route := [], cache := cache, calls := 1, sleeps := 0 }
      | .ok js, _ =>
        if js.isEmpty then
          { duration := none, route := [], cache := cache, calls := 1, sleeps := 0 }
        else
          match bestJourney js with
          | none => { duration := none, route := [], cache := cache, calls := 1, sleeps := 0 }
          | some j =>
            let rt := j.legs.map legToDetail
            let cache2 :=
              if j.duration ≠ 0 then cachePut (cache_key startId endId) j.duration rt now cache
              else cache
            { duration := some j.duration, route := rt, cache := cache2, calls := 1, sleeps := 0 }

/-- State threaded through the per-origin loop at lines 214-224: the times
and routes gathered so far, the validity flag, the session cache and the
index of the next network attempt. -/
structure EvalSt where
  times : List Nat
  routes : List (List RouteDetail)
  valid : Bool
  cache : Cache
  ci : Nat
deriving DecidableEq, Repr

/-- Lines 218-224: one iteration of the loop over the origin stations.  Once
the candidate is invalid the Python loop has exited via break, so no further
fetch happens; otherwise the travel time is fetched and a falsy value (null
or zero minutes) invalidates the whole candidate. -/
def evalStep (destId : String) (provider : Nat → HttpOutcome) (now : Nat)
    (s : EvalSt) (startId : String) : EvalSt :=
  if s.valid then
    let f := get_travel_time_with_routes startId destId provider now s.cache s.ci 3
    match f.duration with
    | some (d + 1) =>
      { times := s.times ++ [d + 1], routes := s.routes ++ [f.route], valid := true,
        cache := f.cache, ci := s.ci + f.calls }
    | _ => { s with valid := false, cache := f.cache, ci := s.ci + f.calls }
  else s

/-- Lines 214-224: gather travel times from every origin to one candidate
destination, short-circuiting on the first failure. -/
def evalCandidate (origins : List String) (destId : String) (provider : Nat → HttpOutcome)
    (now : Nat) (cache : Cache) (ci : Nat) : EvalSt :=
  origins.foldl (evalStep destId provider now)
    { times := [], routes := [], valid := true, cache := cache, ci := ci }

/-- Line 227: arithmetic mean of the durations, exact in the rationals. -/
def meanQ (ts : List Nat) : ℚ := (ts.map (fun t => (t : ℚ))).sum / (ts.length : ℚ)

/-- Line 228: population variance of the durations, the average of squared
deviations from the mean, exact in the rationals. -/
def varianceQ (ts : List Nat) : ℚ :=
  (ts.map (fun t => ((t : ℚ) - meanQ ts) ^ 2)).sum / (ts.length : ℚ)

/-- Line 229: the comparison variance < min_variance, where min_variance is
initially float inf, modelled as none. -/
def ltMinVar (v : ℚ) : Option ℚ → Bool
  | none => true
  | some m => decide (v < m)

/-- A candidate destination station: its display name (column Station) and
its opaque identifier (column StationID). -/
structure Station where
  name : String
  id : String
deriving DecidableEq, Repr

/-- State of the candidate search at lines 205-233: the best station name so
far, the minimal variance so far (none meaning float inf), the retained
times and routes, plus the threaded cache and network attempt index. -/
structure SolveSt where
  best : Option String
  minVar : Option ℚ
  times : List Nat
  routes : List (List RouteDetail)
  cache : Cache
  ci : Nat
deriving DecidableEq, Repr

/-- Lines 211-233: the loop over the filtered candidate stations.  Each
candidate is scored by evalCandidate; valid complete candidates compete on
variance with a strict comparison, so the first candidate attaining the
minimum is kept.  Besides the final state the function returns the trace of
per-candidate outcomes, in loop order: the station together with its
variance when it was scored, or none when it was discarded. -/
def searchLoop (origins : List String) (provider : Nat → HttpOutcome) (now : Nat) :
    SolveSt → List Station → SolveSt × List (Station × Option ℚ)
  | s, [] => (s, [])
  | s, c :: cs =>
    let e := evalCandidate origins c.id provider now s.cache s.ci
    if e.valid && (e.times.length == origins.length) then
      let v := varianceQ e.times
      let s2 :=
        if ltMinVar v s.minVar then
          { best := some c.name, minVar := some v, times := e.times, routes := e.routes,
            cache := e.cache, ci := e.ci }
        else { s with cache := e.cache, ci := e.ci }
      let r := searchLoop origins provider now s2 cs
      (r.1, (c, some v) :: r.2)
    else
      let r := searchLoop origins provider now { s with cache := e.cache, ci := e.ci } cs
      (r.1, (c, none) :: r.2)

/-- The whole evaluation phase of one solve, started from the initial state
of lines 205-207 (no best station, min_variance infinite, empty results). -/
def findMeetingStation (origins : List String) (candidates : List Station)
    (provider : Nat → HttpOutcome) (now : Nat) (cache : Cache) :
    SolveSt × List (Station × Option ℚ) :=
  searchLoop origins provider now
    { best := none, minVar := none, times := [], routes := [], cache := cache, ci := 0 }
    candidates

/-- The scored candidates of a trace: name and variance of every candidate
that produced a complete result, in loop order. -/
def validVars (tr : List (Station × Option ℚ)) : List (String × ℚ) :=
  tr.filterMap (fun p => p.2.map (fun v => (p.1.name, v)))

/-- A station identifier that does not contain the underscore used as the
cache key separator.  All real TfL station identifiers are of this form. -/
def sepFree (s : String) : Prop := '_' ∉ s.data

instance (s : String) : Decidable (sepFree s) :=
  inferInstanceAs (Decidable ('_' ∉ s.data))

/-- Every key of the cache was built by cache_key from two distinct
separator-free identifiers.  This holds of the empty cache and is preserved
by the client, and it rules out any key of the self-journey shape. -/
def GoodCache (c : Cache) : Prop :=
  ∀ e ∈ c, ∃ a b, e.key = cache_key a b ∧ a ≠ b ∧ sepFree a ∧ sepFree b

example :
    get_travel_time_with_routes "A" "B" (fun _ => .ok [⟨12, [⟨"P", "Q", ["Victoria"]⟩]⟩]) 0 [] 0 3 =
      { duration := some 12, route := [⟨"P", "Q", "Victoria"⟩],
        cache := [⟨"A_B", 12, [⟨"P", "Q", "Victoria"⟩], 0⟩], calls := 1, sleeps := 0 } := by
  decide

example :
    get_travel_time_with_routes "A" "A" (fun _ => .ok [⟨12, []⟩]) 0 [] 0 3 =
      { duration := none, route := [], cache := [], calls := 0, sleeps := 0 } := by
  decide

example :
    (get_travel_time_with_routes "A" "B" (fun _ => .timeout) 0 [] 0 3).calls = 4 := by
  decide

example :
    (findMeetingStation ["A", "B"] [⟨"Aldgate", "A"⟩, ⟨"Cannon", "C"⟩]
      (fun _ => .ok [⟨10, [⟨"P", "Q", ["Victoria"]⟩]⟩]) 0 []).1.best = some "Cannon" := by
  decide

example :
    (findMeetingStation ["A", "B"] [⟨"Aldgate", "A"⟩, ⟨"Cannon", "C"⟩]
      (fun _ => .ok [⟨10, [⟨"P", "Q", ["Victoria"]⟩]⟩]) 0 []).2.map (fun p => (p.1.name, p.2)) =
      [("Aldgate", none), ("Cannon", some 0)] := by
  simp [findMeetingStation, searchLoop, evalCandidate, evalStep,
    get_travel_time_with_routes, cacheFind, cache_key, bestJourney, legToDetail,
    numChanges, cachePut, varianceQ, meanQ, ltMinVar]


/-! Unfolding lemmas for the three entry branches of the client. -/

theorem fetch_hit (startId endId : String) (provider : Nat → HttpOutcome) (now : Nat)
    (cache : Cache) (ci r : Nat) (ent : CacheEntry)
    (h : cacheFind (cache_key startId endId) cache = some ent) :
    get_travel_time_with_routes startId endId provider now cache ci r =
      { duration := some ent.duration, route := ent.route, cache := cache, calls := 0, sleeps := 0 } := by
  cases r with
  | zero => cases hp : provider ci <;> simp [get_travel_time_with_routes, hp, h]
  | succ r => cases hp : provider ci <;> simp [get_travel_time_with_routes, hp, h]

theorem fetch_self (startId : String) (provider : Nat → HttpOutcome) (now : Nat)
    (cache : Cache) (ci r : Nat)
    (h : cacheFind (cache_key startId startId) cache = none) :
    get_travel_time_with_routes startId startId provider now cache ci r =
      { duration := none, route := [], cache := cache, calls := 0, sleeps := 0 } := by
  cases r with
  | zero => cases hp : provider ci <;> simp [get_travel_time_with_routes, hp, h]
  | succ r => cases hp : provider ci <;> simp [get_travel_time_with_routes, hp, h]

theorem fetch_timeout_zero (startId endId : String) (provider : Nat → HttpOutcome) (now : Nat)
    (cache : Cache) (ci : Nat)
    (hmiss : cacheFind (cache_key startId endId) cache = none) (hne : startId ≠ endId)
    (hp : provider ci = .timeout) :
    get_travel_time_with_routes startId endId provider now cache ci 0 =
      { duration := none, route := [], cache := cache, calls := 1, sleeps := 0 } := by
  simp [get_travel_time_with_routes, hp, hmiss, hne]

theorem fetch_timeout_succ (startId endId : String) (provider : Nat → HttpOutcome) (now : Nat)
    (cache : Cache) (ci r : Nat)
    (hmiss : cacheFind (cache_key startId endId) cache = none) (hne : startId ≠ endId)
    (hp : provider ci = .timeout) :
    get_travel_time_with_routes startId endId provider now cache ci (r + 1) =
      { duration := (get_travel_time_with_routes startId endId provider now cache (ci + 1) r).duration,
        route := (get_travel_time_with_routes startId endId provider now cache (ci + 1) r).route,
        cache := (get_travel_time_with_routes startId endId provider now cache (ci + 1) r).cache,
        calls := (get_travel_time_with_routes startId endId provider now cache (ci + 1) r).calls + 1,
        sleeps := (get_travel_time_with_routes startId endId provider now cache (ci + 1) r).sleeps + 1 } := by
  conv_lhs => rw [get_travel_time_with_routes.eq_1 startId endId provider now cache ci r hp]
  simp [hmiss, hne]

theorem fetch_error (startId endId : String) (provider : Nat → HttpOutcome) (now : Nat)
    (cache : Cache) (ci r : Nat)
    (hmiss : cacheFind (cache_key startId endId) cache = none) (hne : startId ≠ endId)
    (hp : provider ci = .error) :
    get_travel_time_with_routes startId endId provider now cache ci r =
      { duration := none, route := [], cache := cache, calls := 1, sleeps := 0 } := by
  simp [get_travel_time_with_routes, hp, hmiss, hne]

theorem fetch_ok (startId endId : String) (provider : Nat → HttpOutcome) (now : Nat)
    (cache : Cache) (ci r : Nat) (js : List Journey)
    (hmiss : cacheFind (cache_key startId endId) cache = none) (hne : startId ≠ endId)
    (hp : provider ci = .ok js) :
    get_travel_time_with_routes startId endId provider now cache ci r =
      (if js.isEmpty then
        { duration := none, route := [], cache := cache, calls := 1, sleeps := 0 }
      else
        match bestJourney js with
        | none => { duration := none, route := [], cache := cache, calls := 1, sleeps := 0 }
        | some j =>
          { duration := some j.duration, route := j.legs.map legToDetail,
            cache :=
              if j.duration ≠ 0 then
                cachePut (cache_key startId endId) j.duration (j.legs.map legToDetail) now cache
              else cache,
            calls := 1, sleeps := 0 }) := by
  cases r with
  | zero => simp [get_travel_time_with_routes, hp, hmiss, hne]
  | succ r => simp [get_travel_time_with_routes, hp, hmiss, hne]


/-! Effect of one client call on the session cache. -/

/-- A call returning a null duration leaves the session cache unchanged. -/
theorem fetch_none_cache (startId endId : String) (provider : Nat → HttpOutcome) (now : Nat)
    (cache : Cache) (ci r : Nat)
    (h : (get_travel_time_with_routes startId endId provider now cache ci r).duration = none) :
    (get_travel_time_with_routes startId endId provider now cache ci r).cache = cache := by
  induction r generalizing ci with
  | zero =>
    cases hc : cacheFind (cache_key startId endId) cache with
    | some ent => rw [fetch_hit _ _ _ _ _ _ _ _ hc]
    | none =>
      by_cases he : startId = endId
      · subst he; rw [fetch_self _ _ _ _ _ _ hc]
      · cases hp : provider ci with
        | timeout => rw [fetch_timeout_zero _ _ _ _ _ _ hc he hp]
        | error => rw [fetch_error _ _ _ _ _ _ _ hc he hp]
        | ok js =>
          rw [fetch_ok _ _ _ _ _ _ _ _ hc he hp] at h ⊢
          by_cases hje : js.isEmpty
          · simp [hje]
          · simp only [hje, if_false] at h ⊢
            cases hbj : bestJourney js with
            | none => simp [hbj]
            | some j => simp [hbj] at h
  | succ r ih =>
    cases hc : cacheFind (cache_key startId endId) cache with
    | some ent => rw [fetch_hit _ _ _ _ _ _ _ _ hc]
    | none =>
      by_cases he : startId = endId
      · subst he; rw [fetch_self _ _ _ _ _ _ hc]
      · cases hp : provider ci with
        | timeout =>
          rw [fetch_timeout_succ _ _ _ _ _ _ _ hc he hp] at h ⊢
          exact ih (ci + 1) h
        | error => rw [fetch_error _ _ _ _ _ _ _ hc he hp]
        | ok js =>
          rw [fetch_ok _ _ _ _ _ _ _ _ hc he hp] at h ⊢
          by_cases hje : js.isEmpty
          · simp [hje]
          · simp only [hje, if_false] at h ⊢
            cases hbj : bestJourney js with
            | none => simp [hbj]
            | some j => simp [hbj] at h

/-- A call returning a zero duration leaves the session cache unchanged:
line 78 only stores truthy durations. -/
theorem fetch_zero_cache (startId endId : String) (provider : Nat → HttpOutcome) (now : Nat)
    (cache : Cache) (ci r : Nat)
    (h : (get_travel_time_with_routes startId endId provider now cache ci r).duration = some 0) :
    (get_travel_time_with_routes startId endId provider now cache ci r).cache = cache := by
  induction r generalizing ci with
  | zero =>
    cases hc : cacheFind (cache_key startId endId) cache with
    | some ent => rw [fetch_hit _ _ _ _ _ _ _ _ hc]
    | none =>
      by_cases he : startId = endId
      · subst he; rw [fetch_self _ _ _ _ _ _ hc]
      · cases hp : provider ci with
        | timeout => rw [fetch_timeout_zero _ _ _ _ _ _ hc he hp]
        | error => rw [fetch_error _ _ _ _ _ _ _ hc he hp]
        | ok js =>
          rw [fetch_ok _ _ _ _ _ _ _ _ hc he hp] at h ⊢
          by_cases hje : js.isEmpty
          · simp [hje]
          · simp only [hje, if_false] at h ⊢
            cases hbj : bestJourney js with
            | none => simp [hbj]
            | some j => simp only [hbj] at h ⊢; simp at h; simp [h]
  | succ r ih =>
    cases hc : cacheFind (cache_key startId endId) cache with
    | some ent => rw [fetch_hit _ _ _ _ _ _ _ _ hc]
    | none =>
      by_cases he : startId = endId
      · subst he; rw [fetch_self _ _ _ _ _ _ hc]
      · cases hp : provider ci with
        | timeout =>
          rw [fetch_timeout_succ _ _ _ _ _ _ _ hc he hp] at h ⊢
          exact ih (ci + 1) h
        | error => rw [fetch_error _ _ _ _ _ _ _ hc he hp]
        | ok js =>
          rw [fetch_ok _ _ _ _ _ _ _ _ hc he hp] at h ⊢
          by_cases hje : js.isEmpty
          · simp [hje]
          · simp only [hje, if_false] at h ⊢
            cases hbj : bestJourney js with
            | none => simp [hbj]
            | some j => simp only [hbj] at h ⊢; simp at h; simp [h]

/-- A fresh call (cache miss) that returns a truthy duration stores exactly
that duration and route in the session cache under the directional key. -/
theorem fetch_success_cache (startId endId : String) (provider : Nat → HttpOutcome) (now : Nat)
    (cache : Cache) (ci r : Nat) (d : Nat)
    (hmiss : cacheFind (cache_key startId endId) cache = none)
    (h : (get_travel_time_with_routes startId endId provider now cache ci r).duration = some d)
    (hd : d ≠ 0) :
    (get_travel_time_with_routes startId endId provider now cache ci r).cache =
      cachePut (cache_key startId endId) d
        ((get_travel_time_with_routes startId endId provider now cache ci r).route) now cache := by
  induction r generalizing ci with
  | zero =>
    by_cases he : startId = endId
    · subst he; rw [fetch_self _ _ _ _ _ _ hmiss] at h; simp at h
    · cases hp : provider ci with
      | timeout => rw [fetch_timeout_zero _ _ _ _ _ _ hmiss he hp] at h; simp at h
      | error => rw [fetch_error _ _ _ _ _ _ _ hmiss he hp] at h; simp at h
      | ok js =>
        rw [fetch_ok _ _ _ _ _ _ _ _ hmiss he hp] at h ⊢
        by_cases hje : js.isEmpty
        · simp [hje] at h
        · simp only [hje, if_false] at h ⊢
          cases hbj : bestJourney js with
          | none => simp [hbj] at h
          | some j =>
            simp only [hbj] at h ⊢
            simp at h
            subst h
            simp [hd]
  | succ r ih =>
    by_cases he : startId = endId
    · subst he; rw [fetch_self _ _ _ _ _ _ hmiss] at h; simp at h
    · cases hp : provider ci with
      | timeout =>
        rw [fetch_timeout_succ _ _ _ _ _ _ _ hmiss he hp] at h ⊢
        exact ih (ci + 1) h
      | error => rw [fetch_error _ _ _ _ _ _ _ hmiss he hp] at h; simp at h
      | ok js =>
        rw [fetch_ok _ _ _ _ _ _ _ _ hmiss he hp] at h ⊢
        by_cases hje : js.isEmpty
        · simp [hje] at h
        · simp only [hje, if_false] at h ⊢
          cases hbj : bestJourney js with
          | none => simp [hbj] at h
          | some j =>
            simp only [hbj] at h ⊢
            simp at h
            subst h
            simp [hd]

/-- The session cache after a call is either unchanged or extended by one
entry under the directional key of a genuine (non-self) journey. -/
theorem fetch_cache_cases (startId endId : String) (provider : Nat → HttpOutcome) (now : Nat)
    (cache : Cache) (ci r : Nat) :
    (get_travel_time_with_routes startId endId provider now cache ci r).cache = cache ∨
      (startId ≠ endId ∧ ∃ d rt,
        (get_travel_time_with_routes startId endId provider now cache ci r).cache =
          cachePut (cache_key startId endId) d rt now cache) := by
  induction r generalizing ci with
  | zero =>
    cases hc : cacheFind (cache_key startId endId) cache with
    | some ent => rw [fetch_hit _ _ _ _ _ _ _ _ hc]; left; rfl
    | none =>
      by_cases he : startId = endId
      · subst he; rw [fetch_self _ _ _ _ _ _ hc]; left; rfl
      · cases hp : provider ci with
        | timeout => rw [fetch_timeout_zero _ _ _ _ _ _ hc he hp]; left; rfl
        | error => rw [fetch_error _ _ _ _ _ _ _ hc he hp]; left; rfl
        | ok js =>
          rw [fetch_ok _ _ _ _ _ _ _ _ hc he hp]
          by_cases hje : js.isEmpty
          · left; simp [hje]
          · simp only [hje, if_false]
            cases hbj : bestJourney js with
            | none => left; simp
            | some j =>
              by_cases hd : j.duration = 0
              · left; simp [hd]
              · right; exact ⟨he, j.duration, j.legs.map legToDetail, by simp [hd]⟩
  | succ r ih =>
    cases hc : cacheFind (cache_key startId endId) cache with
    | some ent => rw [fetch_hit _ _ _ _ _ _ _ _ hc]; left; rfl
    | none =>
      by_cases he : startId = endId
      · subst he; rw [fetch_self _ _ _ _ _ _ hc]; left; rfl
      · cases hp : provider ci with
        | timeout =>
          rw [fetch_timeout_succ _ _ _ _ _ _ _ hc he hp]
          exact ih (ci + 1)
        | error => rw [fetch_error _ _ _ _ _ _ _ hc he hp]; left; rfl
        | ok js =>
          rw [fetch_ok _ _ _ _ _ _ _ _ hc he hp]
          by_cases hje : js.isEmpty
          · left; simp [hje]
          · simp only [hje, if_false]
            cases hbj : bestJourney js with
            | none => left; simp
            | some j =>
              by_cases hd : j.duration = 0
              · left; simp [hd]
              · right; exact ⟨he, j.duration, j.legs.map legToDetail, by simp [hd]⟩

/-- C10.  The travel-time client terminates on every input (it is a total
function of this development) and the timeout-retry recursion strictly
decreases the retries counter, so a call started with retries = r performs
at most r + 1 network requests, whatever the provider does. -/
theorem c10_fetch_call_bound (startId endId : String) (provider : Nat → HttpOutcome) (now : Nat)
    (cache : Cache) (ci r : Nat) :
    (get_travel_time_with_routes startId endId provider now cache ci r).calls ≤ r + 1 := by
  induction r generalizing ci with
  | zero =>
    cases hc : cacheFind (cache_key startId endId) cache with
    | some ent => rw [fetch_hit _ _ _ _ _ _ _ _ hc]; simp
    | none =>
      by_cases he : startId = endId
      · subst he; rw [fetch_self _ _ _ _ _ _ hc]; simp
      · cases hp : provider ci with
        | timeout => rw [fetch_timeout_zero _ _ _ _ _ _ hc he hp]
        | error => rw [fetch_error _ _ _ _ _ _ _ hc he hp]
        | ok js =>
          rw [fetch_ok _ _ _ _ _ _ _ _ hc he hp]
          by_cases hje : js.isEmpty
          · simp [hje]
          · simp only [hje, if_false]
            cases hbj : bestJourney js with
            | none => simp
            | some j => simp
  | succ r ih =>
    cases hc : cacheFind (cache_key startId endId) cache with
    | some ent => rw [fetch_hit _ _ _ _ _ _ _ _ hc]; simp
    | none =>
      by_cases he : startId = endId
      · subst he; rw [fetch_self _ _ _ _ _ _ hc]; simp
      · cases hp : provider ci with
        | timeout =>
          rw [fetch_timeout_succ _ _ _ _ _ _ _ hc he hp]
          have := ih (ci + 1)
          simp only []
          omega
        | error =>
          rw [fetch_error _ _ _ _ _ _ _ hc he hp]; simp
        | ok js =>
          rw [fetch_ok _ _ _ _ _ _ _ _ hc he hp]
          by_cases hje : js.isEmpty
          · simp [hje]
          · simp only [hje, if_false]
            cases hbj : bestJourney js with
            | none => simp
            | some j => simp

/-! Uniqueness of splitting at the underscore separator, and the claims
about the cache key, the TTL, the retry policy and cache mutation. -/

/-- Splitting a character list at a separator occurring in neither part is
unambiguous. -/
theorem sep_split_unique (a : List Char) :
    ∀ (c b d : List Char), '_' ∉ a → '_' ∉ c →
      a ++ '_' :: b = c ++ '_' :: d → a = c ∧ b = d := by
  induction a with
  | nil =>
    intro c b d _ hc h
    cases c with
    | nil => simpa using h
    | cons y ys =>
      simp only [List.nil_append, List.cons_append, List.cons.injEq] at h
      cases h.1
      exact absurd (List.mem_cons_self _ _) hc
  | cons x xs ih =>
    intro c b d ha hc h
    cases c with
    | nil =>
      simp only [List.cons_append, List.nil_append, List.cons.injEq] at h
      cases h.1
      exact absurd (List.mem_cons_self _ _) ha
    | cons y ys =>
      simp only [List.cons_append, List.cons.injEq] at h
      obtain ⟨hxy, htail⟩ := h
      have ha2 : '_' ∉ xs := fun hm => ha (List.mem_cons_of_mem _ hm)
      have hc2 : '_' ∉ ys := fun hm => hc (List.mem_cons_of_mem _ hm)
      obtain ⟨h1, h2⟩ := ih ys b d ha2 hc2 htail
      exact ⟨by rw [hxy, h1], h2⟩

/-- On separator-free identifiers the cache key function is injective as a
function of the ordered pair. -/
theorem cache_key_inj (a b c d : String) (ha : sepFree a) (hc : sepFree c)
    (h : cache_key a b = cache_key c d) : a = c ∧ b = d := by
  have hdata : a.data ++ '_' :: b.data = c.data ++ '_' :: d.data := by
    have h2 := congrArg String.data h
    simpa [cache_key, String.data_append] using h2
  obtain ⟨h1, h2⟩ := sep_split_unique a.data c.data b.data d.data ha hc hdata
  constructor
  · cases a; cases c; exact congrArg String.mk h1
  · cases b; cases d; exact congrArg String.mk h2

/-- C5 counterexample.  For identifiers containing the separator the claim
fails: the two distinct stations a_a and a produce the same cache key in
both directions, so a cached result for one direction would be returned for
the reverse query. -/
theorem c5_counterexample :
    ("a_a" : String) ≠ "a" ∧ cache_key "a_a" "a" = cache_key "a" "a_a" := by
  decide

/-- C5 (amended).  For every pair of distinct separator-free station
identifiers o and d, the cache key of (o, d) differs from the cache key of
(d, o), so within such identifiers a cached result is never returned for the
reverse direction. -/
theorem c5_directional_keys (o d : String) (ho : sepFree o) (hd : sepFree d) (hne : o ≠ d) :
    cache_key o d ≠ cache_key d o := by
  intro h
  exact hne (cache_key_inj o d d o ho hd h).1

theorem c5_directional_keys_witness :
    sepFree "940GZZLUKSX" ∧ sepFree "940GZZLUVIC" ∧ ("940GZZLUKSX" : String) ≠ "940GZZLUVIC" ∧
      cache_key "940GZZLUKSX" "940GZZLUVIC" ≠ cache_key "940GZZLUVIC" "940GZZLUKSX" :=
  ⟨by decide, by decide, by decide, c5_directional_keys _ _ (by decide) (by decide) (by decide)⟩

/-- C8.  The evaluator computes the population variance of the per-origin
durations: durations 10, 10, 10 give variance 0, and durations 8, 10, 12
give mean 10 and variance 8/3. -/
theorem c8_population_variance :
    varianceQ [10, 10, 10] = 0 ∧ meanQ [8, 10, 12] = 10 ∧ varianceQ [8, 10, 12] = 8 / 3 := by
  refine ⟨?_, ?_, ?_⟩ <;> norm_num [varianceQ, meanQ]

/-- C2 counterexample.  A session-cache entry inserted at time 0 is still
served at time 7200, one hour past the configured 3600 second TTL, with zero
provider calls, even against a provider that would fail: the age of the
entry is never examined, so no fresh fetch is forced. -/
theorem c2_counterexample :
    (0 : Nat) + 3600 < 7200 ∧
    get_travel_time_with_routes "A" "B" (fun _ => .error) 7200
        [{ key := "A_B", duration := 10, route := [], insertedAt := 0 }] 0 3 =
      { duration := some 10, route := [],
        cache := [{ key := "A_B", duration := 10, route := [], insertedAt := 0 }],
        calls := 0, sleeps := 0 } := by
  decide

/-- C2 (amended).  The in-memory session cache consulted first by the client
has no TTL at all: an entry older than the configured 3600 second TTL is
still returned unchanged with no provider call.  Expiry exists only in the
separate HTTP-layer response cache, which this session cache shadows. -/
theorem c2_session_cache_never_expires (startId endId : String) (provider : Nat → HttpOutcome)
    (now : Nat) (cache : Cache) (ci r : Nat) (ent : CacheEntry)
    (hfind : cacheFind (cache_key startId endId) cache = some ent)
    (_hstale : ent.insertedAt + 3600 < now) :
    get_travel_time_with_routes startId endId provider now cache ci r =
      { duration := some ent.duration, route := ent.route, cache := cache, calls := 0, sleeps := 0 } :=
  fetch_hit startId endId provider now cache ci r ent hfind

theorem c2_session_cache_never_expires_witness :
    cacheFind (cache_key "A" "B") [{ key := "A_B", duration := 10, route := [], insertedAt := 0 }] =
        some { key := "A_B", duration := 10, route := [], insertedAt := 0 } ∧
    ({ key := "A_B", duration := 10, route := [], insertedAt := 0 } : CacheEntry).insertedAt + 3600 < 7200 ∧
    get_travel_time_with_routes "A" "B" (fun _ => .timeout) 7200
        [{ key := "A_B", duration := 10, route := [], insertedAt := 0 }] 0 3 =
      { duration := some 10, route := [],
        cache := [{ key := "A_B", duration := 10, route := [], insertedAt := 0 }],
        calls := 0, sleeps := 0 } :=
  ⟨by decide, by decide,
    c2_session_cache_never_expires "A" "B" (fun _ => .timeout) 7200
      [{ key := "A_B", duration := 10, route := [], insertedAt := 0 }] 0 3
      { key := "A_B", duration := 10, route := [], insertedAt := 0 } (by decide) (by decide)⟩

/-- C3.  On timeouts the client retries with a one second sleep between
attempts until the counter is exhausted, which yields failure with the cache
untouched after r + 1 attempts and r sleeps; and against a provider that
times out twice and succeeds on the third attempt, the default call returns
the successful result having made exactly 3 provider calls and 2 sleeps. -/
theorem c3_retry_policy (startId endId : String) (provider : Nat → HttpOutcome) (now : Nat)
    (cache : Cache) (ci r : Nat)
    (hmiss : cacheFind (cache_key startId endId) cache = none) (hne : startId ≠ endId)
    (ht : ∀ i, provider i = .timeout) :
    get_travel_time_with_routes startId endId provider now cache ci r =
      { duration := none, route := [], cache := cache, calls := r + 1, sleeps := r } ∧
    get_travel_time_with_routes "A" "B"
        (fun i => if i < 2 then .timeout else .ok [⟨7, [⟨"P", "Q", []⟩]⟩]) 0 [] 0 3 =
      { duration := some 7, route := [⟨"P", "Q", "Walking"⟩],
        cache := [⟨"A_B", 7, [⟨"P", "Q", "Walking"⟩], 0⟩], calls := 3, sleeps := 2 } := by
  constructor
  · induction r generalizing ci with
    | zero => exact fetch_timeout_zero _ _ _ _ _ _ hmiss hne (ht ci)
    | succ r ih =>
      rw [fetch_timeout_succ _ _ _ _ _ _ _ hmiss hne (ht ci), ih (ci + 1)]
  · decide

theorem c3_retry_policy_witness :
    cacheFind (cache_key "A" "B") [] = none ∧ ("A" : String) ≠ "B" ∧
    get_travel_time_with_routes "A" "B" (fun _ => .timeout) 0 [] 0 3 =
      { duration := none, route := [], cache := [], calls := 4, sleeps := 3 } :=
  ⟨by decide, by decide,
    (c3_retry_policy "A" "B" (fun _ => .timeout) 0 [] 0 3 (by decide) (by decide)
      (fun _ => rfl)).1⟩

/-- C4 counterexample.  A provider journey of duration 0 yields a response
whose duration is present (non-null) and yet nothing is stored: the source
only caches truthy durations, so the claim that every non-null duration is
cached fails at duration 0. -/
theorem c4_counterexample :
    (get_travel_time_with_routes "A" "B" (fun _ => .ok [⟨0, []⟩]) 0 [] 0 3).duration = some 0 ∧
    (get_travel_time_with_routes "A" "B" (fun _ => .ok [⟨0, []⟩]) 0 [] 0 3).cache = [] := by
  decide

/-- C4 (amended).  The session cache is mutated only by successful fetches
with a truthy duration: a call returning null or zero duration leaves the
cache exactly unchanged, and a fresh call returning a nonzero duration d
stores precisely d with its route under the directional query key. -/
theorem c4_cache_mutation (startId endId : String) (provider : Nat → HttpOutcome) (now : Nat)
    (cache : Cache) (ci r : Nat) :
    ((get_travel_time_with_routes startId endId provider now cache ci r).duration = none →
      (get_travel_time_with_routes startId endId provider now cache ci r).cache = cache) ∧
    ((get_travel_time_with_routes startId endId provider now cache ci r).duration = some 0 →
      (get_travel_time_with_routes startId endId provider now cache ci r).cache = cache) ∧
    (cacheFind (cache_key startId endId) cache = none →
      ∀ d, (get_travel_time_with_routes startId endId provider now cache ci r).duration = some d →
        d ≠ 0 →
        (get_travel_time_with_routes startId endId provider now cache ci r).cache =
          cachePut (cache_key startId endId) d
            ((get_travel_time_with_routes startId endId provider now cache ci r).route) now cache) :=
  ⟨fetch_none_cache startId endId provider now cache ci r,
   fetch_zero_cache startId endId provider now cache ci r,
   fun hmiss d h hd => fetch_success_cache startId endId provider now cache ci r d hmiss h hd⟩

theorem c4_cache_mutation_witness :
    (get_travel_time_with_routes "A" "B" (fun _ => .error) 0 [] 0 3).duration = none ∧
    (get_travel_time_with_routes "A" "B" (fun _ => .error) 0 [] 0 3).cache = [] ∧
    cacheFind (cache_key "A" "B") [] = none ∧
    (get_travel_time_with_routes "A" "B" (fun _ => .ok [⟨5, []⟩]) 0 [] 0 3).duration = some 5 ∧
    (get_travel_time_with_routes "A" "B" (fun _ => .ok [⟨5, []⟩]) 0 [] 0 3).cache =
      cachePut (cache_key "A" "B") 5
        ((get_travel_time_with_routes "A" "B" (fun _ => .ok [⟨5, []⟩]) 0 [] 0 3).route) 0 [] :=
  ⟨by decide, (c4_cache_mutation "A" "B" (fun _ => .error) 0 [] 0 3).1 (by decide), by decide,
    by decide,
    (c4_cache_mutation "A" "B" (fun _ => .ok [⟨5, []⟩]) 0 [] 0 3).2.2 (by decide) 5 (by decide)
      (by decide)⟩

/-! The per-origin evaluation loop: break semantics and completeness of
retained results. -/

/-- Once the validity flag is down, an iteration does nothing (the Python
loop has already exited via break). -/
theorem evalStep_invalid (destId : String) (provider : Nat → HttpOutcome) (now : Nat)
    (s : EvalSt) (o : String) (h : s.valid = false) :
    evalStep destId provider now s o = s := by
  simp [evalStep, h]

/-- Invalidity is absorbing for the whole loop. -/
theorem foldl_evalStep_invalid (destId : String) (provider : Nat → HttpOutcome) (now : Nat)
    (l : List String) (s : EvalSt) (h : s.valid = false) :
    List.foldl (evalStep destId provider now) s l = s := by
  induction l with
  | nil => rfl
  | cons o l ih => rw [List.foldl_cons, evalStep_invalid _ _ _ _ _ h]; exact ih

/-- A successful iteration needs a valid incoming state and extends the
times and routes by exactly one element each. -/
theorem evalStep_valid_cases (destId : String) (provider : Nat → HttpOutcome) (now : Nat)
    (s : EvalSt) (o : String) (h : (evalStep destId provider now s o).valid = true) :
    s.valid = true ∧
    (evalStep destId provider now s o).times.length = s.times.length + 1 ∧
    (evalStep destId provider now s o).routes.length = s.routes.length + 1 := by
  by_cases hv : s.valid
  · refine ⟨hv, ?_⟩
    unfold evalStep at h ⊢
    simp only [hv, if_true] at h ⊢
    cases hd : (get_travel_time_with_routes o destId provider now s.cache s.ci 3).duration with
    | none => simp [hd] at h
    | some n =>
      cases n with
      | zero => simp [hd] at h
      | succ d => simp [hd]
  · rw [evalStep_invalid _ _ _ _ _ (by simpa using hv)] at h
    exact absurd h (by simpa using hv)

/-- If the loop ends valid, it has collected one time and one route per
origin processed. -/
theorem foldl_evalStep_length (destId : String) (provider : Nat → HttpOutcome) (now : Nat) :
    ∀ (l : List String) (s : EvalSt),
      (List.foldl (evalStep destId provider now) s l).valid = true →
      (List.foldl (evalStep destId provider now) s l).times.length = s.times.length + l.length ∧
      (List.foldl (evalStep destId provider now) s l).routes.length = s.routes.length + l.length := by
  intro l
  induction l with
  | nil => intro s _; simp
  | cons o l ih =>
    intro s h
    rw [List.foldl_cons] at h ⊢
    have hstep : (evalStep destId provider now s o).valid = true := by
      by_contra hc
      rw [foldl_evalStep_invalid _ _ _ _ _ (by simpa using hc)] at h
      exact hc h
    obtain ⟨h1, h2⟩ := ih _ h
    obtain ⟨_, ht, hr⟩ := evalStep_valid_cases _ _ _ _ _ hstep
    constructor
    · rw [h1, ht]; simp; omega
    · rw [h2, hr]; simp; omega

/-- A falsy fetch for one origin invalidates the candidate at that origin
and the rest of the origin list is never consulted: the outcome is the same
whatever follows the failing origin. -/
theorem eval_break (destId : String) (provider : Nat → HttpOutcome) (now : Nat)
    (cache : Cache) (ci : Nat) (pre : List String) (o : String) (rest rest2 : List String)
    (hvalid : (evalCandidate pre destId provider now cache ci).valid = true)
    (hfail :
      (get_travel_time_with_routes o destId provider now
        (evalCandidate pre destId provider now cache ci).cache
        (evalCandidate pre destId provider now cache ci).ci 3).duration = none ∨
      (get_travel_time_with_routes o destId provider now
        (evalCandidate pre destId provider now cache ci).cache
        (evalCandidate pre destId provider now cache ci).ci 3).duration = some 0) :
    evalCandidate (pre ++ o :: rest) destId provider now cache ci =
      evalCandidate (pre ++ o :: rest2) destId provider now cache ci ∧
    (evalCandidate (pre ++ o :: rest) destId provider now cache ci).valid = false := by
  have hstep :
      (evalStep destId provider now (evalCandidate pre destId provider now cache ci) o).valid
        = false := by
    rcases hfail with hf | hf <;> simp [evalStep, hvalid, hf]
  have key : ∀ rest3 : List String,
      evalCandidate (pre ++ o :: rest3) destId provider now cache ci =
        evalStep destId provider now (evalCandidate pre destId provider now cache ci) o := by
    intro rest3
    unfold evalCandidate
    rw [List.foldl_append, List.foldl_cons]
    exact foldl_evalStep_invalid _ _ _ _ _ hstep
  refine ⟨(key rest).trans (key rest2).symm, ?_⟩
  rw [key rest]
  exact hstep

/-- C6.  If any origin fetch fails, the evaluator abandons the candidate at
once, never consulting the remaining origins, and a candidate retained as
valid carries exactly one travel time and one route per input origin. -/
theorem c6_short_circuit_complete (destId : String) (provider : Nat → HttpOutcome) (now : Nat)
    (cache : Cache) (ci : Nat) (origins pre : List String) (o : String) (rest rest2 : List String)
    (hvalid : (evalCandidate pre destId provider now cache ci).valid = true)
    (hfail :
      (get_travel_time_with_routes o destId provider now
        (evalCandidate pre destId provider now cache ci).cache
        (evalCandidate pre destId provider now cache ci).ci 3).duration = none ∨
      (get_travel_time_with_routes o destId provider now
        (evalCandidate pre destId provider now cache ci).cache
        (evalCandidate pre destId provider now cache ci).ci 3).duration = some 0) :
    (evalCandidate (pre ++ o :: rest) destId provider now cache ci =
      evalCandidate (pre ++ o :: rest2) destId provider now cache ci ∧
     (evalCandidate (pre ++ o :: rest) destId provider now cache ci).valid = false) ∧
    ((evalCandidate origins destId provider now cache ci).valid = true →
      (evalCandidate origins destId provider now cache ci).times.length = origins.length ∧
      (evalCandidate origins destId provider now cache ci).routes.length = origins.length) := by
  refine ⟨eval_break destId provider now cache ci pre o rest rest2 hvalid hfail, fun hv => ?_⟩
  have := foldl_evalStep_length destId provider now origins
    { times := [], routes := [], valid := true, cache := cache, ci := ci } hv
  simpa [evalCandidate] using this

theorem c6_short_circuit_complete_witness :
    ((evalCandidate ["A"] "D"
        (fun i => if i = 0 then .ok [⟨5, []⟩] else .error) 0 [] 0).valid = true) ∧
    ((get_travel_time_with_routes "B" "D"
        (fun i => if i = 0 then .ok [⟨5, []⟩] else .error) 0
        (evalCandidate ["A"] "D" (fun i => if i = 0 then .ok [⟨5, []⟩] else .error) 0 [] 0).cache
        (evalCandidate ["A"] "D" (fun i => if i = 0 then .ok [⟨5, []⟩] else .error) 0 [] 0).ci
        3).duration = none) ∧
    (evalCandidate ["A", "B", "C"] "D"
        (fun i => if i = 0 then .ok [⟨5, []⟩] else .error) 0 [] 0 =
      evalCandidate ["A", "B"] "D"
        (fun i => if i = 0 then .ok [⟨5, []⟩] else .error) 0 [] 0) ∧
    (evalCandidate ["A", "B", "C"] "D"
        (fun i => if i = 0 then .ok [⟨5, []⟩] else .error) 0 [] 0).valid = false :=
  ⟨by decide, by decide,
    (c6_short_circuit_complete "D" (fun i => if i = 0 then .ok [⟨5, []⟩] else .error) 0 [] 0
      ["A", "B", "C"] ["A"] "B" ["C"] [] (by decide) (Or.inl (by decide))).1.1,
    (c6_short_circuit_complete "D" (fun i => if i = 0 then .ok [⟨5, []⟩] else .error) 0 [] 0
      ["A", "B", "C"] ["A"] "B" ["C"] [] (by decide) (Or.inl (by decide))).1.2⟩

/-- C9.  A journey of zero minutes is treated as a failure throughout: the
client does not store it in the session cache, and the evaluator invalidates
the whole candidate when any origin fetch returns zero, ignoring the
remaining origins. -/
theorem c9_zero_duration_failure (startId endId destId : String) (provider : Nat → HttpOutcome)
    (now : Nat) (cache : Cache) (ci r : Nat) (pre : List String) (o : String)
    (rest rest2 : List String) :
    ((get_travel_time_with_routes startId endId provider now cache ci r).duration = some 0 →
      (get_travel_time_with_routes startId endId provider now cache ci r).cache = cache) ∧
    ((evalCandidate pre destId provider now cache ci).valid = true →
      (get_travel_time_with_routes o destId provider now
        (evalCandidate pre destId provider now cache ci).cache
        (evalCandidate pre destId provider now cache ci).ci 3).duration = some 0 →
      (evalCandidate (pre ++ o :: rest) destId provider now cache ci).valid = false ∧
      evalCandidate (pre ++ o :: rest) destId provider now cache ci =
        evalCandidate (pre ++ o :: rest2) destId provider now cache ci) :=
  ⟨fetch_zero_cache startId endId provider now cache ci r,
   fun hv hz =>
     ⟨(eval_break destId provider now cache ci pre o rest rest2 hv (Or.inr hz)).2,
      (eval_break destId provider now cache ci pre o rest rest2 hv (Or.inr hz)).1⟩⟩

theorem c9_zero_duration_failure_witness :
    (get_travel_time_with_routes "A" "B" (fun _ => .ok [⟨0, [⟨"P", "Q", []⟩]⟩]) 0 [] 0 3).duration
        = some 0 ∧
    (get_travel_time_with_routes "A" "B" (fun _ => .ok [⟨0, [⟨"P", "Q", []⟩]⟩]) 0 [] 0 3).cache
        = [] ∧
    (evalCandidate ["A", "C"] "B" (fun _ => .ok [⟨0, [⟨"P", "Q", []⟩]⟩]) 0 [] 0).valid = false :=
  ⟨by decide,
    (c9_zero_duration_failure "A" "B" "B" (fun _ => .ok [⟨0, [⟨"P", "Q", []⟩]⟩]) 0 [] 0 3
      [] "A" ["C"] [] ).1 (by decide),
    ((c9_zero_duration_failure "A" "B" "B" (fun _ => .ok [⟨0, [⟨"P", "Q", []⟩]⟩]) 0 [] 0 3
      [] "A" ["C"] [] ).2 (by decide) (by decide)).1⟩

/-! The candidate search: step lemmas, the trace, and best-candidate
selection. -/

theorem searchLoop_nil (origins : List String) (provider : Nat → HttpOutcome) (now : Nat)
    (s : SolveSt) : searchLoop origins provider now s [] = (s, []) := by
  rw [searchLoop]

/-- A candidate failing the validity or completeness guard contributes an
absent trace entry and leaves best and min_variance untouched. -/
theorem searchLoop_cons_skip (origins : List String) (provider : Nat → HttpOutcome) (now : Nat)
    (s : SolveSt) (c : Station) (cs : List Station)
    (hg : ((evalCandidate origins c.id provider now s.cache s.ci).valid &&
        ((evalCandidate origins c.id provider now s.cache s.ci).times.length == origins.length))
        = false) :
    searchLoop origins provider now s (c :: cs) =
      ((searchLoop origins provider now
          { s with cache := (evalCandidate origins c.id provider now s.cache s.ci).cache,
                   ci := (evalCandidate origins c.id provider now s.cache s.ci).ci } cs).1,
        (c, none) ::
          (searchLoop origins provider now
            { s with cache := (evalCandidate origins c.id provider now s.cache s.ci).cache,
                     ci := (evalCandidate origins c.id provider now s.cache s.ci).ci } cs).2) := by
  rw [searchLoop]
  simp only [hg, Bool.false_eq_true, if_false]

/-- A scored candidate beating the running minimum becomes the new best. -/
theorem searchLoop_cons_best (origins : List String) (provider : Nat → HttpOutcome) (now : Nat)
    (s : SolveSt) (c : Station) (cs : List Station)
    (hg : ((evalCandidate origins c.id provider now s.cache s.ci).valid &&
        ((evalCandidate origins c.id provider now s.cache s.ci).times.length == origins.length))
        = true)
    (hlt : ltMinVar (varianceQ (evalCandidate origins c.id provider now s.cache s.ci).times)
        s.minVar = true) :
    searchLoop origins provider now s (c :: cs) =
      ((searchLoop origins provider now
          { best := some c.name,
            minVar := some (varianceQ (evalCandidate origins c.id provider now s.cache s.ci).times),
            times := (evalCandidate origins c.id provider now s.cache s.ci).times,
            routes := (evalCandidate origins c.id provider now s.cache s.ci).routes,
            cache := (evalCandidate origins c.id provider now s.cache s.ci).cache,
            ci := (evalCandidate origins c.id provider now s.cache s.ci).ci } cs).1,
        (c, some (varianceQ (evalCandidate origins c.id provider now s.cache s.ci).times)) ::
          (searchLoop origins provider now
            { best := some c.name,
              minVar := some (varianceQ (evalCandidate origins c.id provider now s.cache s.ci).times),
              times := (evalCandidate origins c.id provider now s.cache s.ci).times,
              routes := (evalCandidate origins c.id provider now s.cache s.ci).routes,
              cache := (evalCandidate origins c.id provider now s.cache s.ci).cache,
              ci := (evalCandidate origins c.id provider now s.cache s.ci).ci } cs).2) := by
  rw [searchLoop]
  simp only [hg, if_true, hlt]

/-- A scored candidate not beating the running minimum is recorded in the
trace but leaves best and min_variance untouched. -/
theorem searchLoop_cons_keep (origins : List String) (provider : Nat → HttpOutcome) (now : Nat)
    (s : SolveSt) (c : Station) (cs : List Station)
    (hg : ((evalCandidate origins c.id provider now s.cache s.ci).valid &&
        ((evalCandidate origins c.id provider now s.cache s.ci).times.length == origins.length))
        = true)
    (hlt : ltMinVar (varianceQ (evalCandidate origins c.id provider now s.cache s.ci).times)
        s.minVar = false) :
    searchLoop origins provider now s (c :: cs) =
      ((searchLoop origins provider now
          { s with cache := (evalCandidate origins c.id provider now s.cache s.ci).cache,
                   ci := (evalCandidate origins c.id provider now s.cache s.ci).ci } cs).1,
        (c, some (varianceQ (evalCandidate origins c.id provider now s.cache s.ci).times)) ::
          (searchLoop origins provider now
            { s with cache := (evalCandidate origins c.id provider now s.cache s.ci).cache,
                     ci := (evalCandidate origins c.id provider now s.cache s.ci).ci } cs).2) := by
  rw [searchLoop]
  simp only [hg, if_true, hlt, Bool.false_eq_true, if_false]

theorem validVars_cons_some (st : Station) (x : ℚ) (t : List (Station × Option ℚ)) :
    validVars ((st, some x) :: t) = (st.name, x) :: validVars t := by
  simp [validVars]

theorem validVars_cons_none (st : Station) (t : List (Station × Option ℚ)) :
    validVars ((st, none) :: t) = validVars t := by
  simp [validVars]

/-- The search trace records exactly the filtered candidates, in order. -/
theorem searchLoop_trace_fst (origins : List String) (provider : Nat → HttpOutcome) (now : Nat) :
    ∀ (cs : List Station) (s : SolveSt),
      ((searchLoop origins provider now s cs).2.map Prod.fst) = cs := by
  intro cs
  induction cs with
  | nil => intro s; rw [searchLoop_nil]; rfl
  | cons c cs ih =>
    intro s
    by_cases hg : ((evalCandidate origins c.id provider now s.cache s.ci).valid &&
        ((evalCandidate origins c.id provider now s.cache s.ci).times.length == origins.length))
        = true
    · by_cases hlt : ltMinVar (varianceQ (evalCandidate origins c.id provider now s.cache s.ci).times)
          s.minVar = true
      · rw [searchLoop_cons_best origins provider now s c cs hg hlt]
        simp [ih]
      · rw [searchLoop_cons_keep origins provider now s c cs hg (by simpa using hlt)]
        simp [ih]
    · rw [searchLoop_cons_skip origins provider now s c cs (by simpa using hg)]
      simp [ih]

/-- Selection invariant of the candidate search: relative to a coherent
starting state, the final best station carries the minimal variance among
the scored candidates, and it is the first candidate attaining it (every
earlier scored candidate is strictly worse, every later one no better). -/
theorem searchLoop_selection (origins : List String) (provider : Nat → HttpOutcome) (now : Nat) :
    ∀ (cs : List Station) (s : SolveSt),
      ((s.best = none ∧ s.minVar = none) ∨ (∃ nm0 v0, s.best = some nm0 ∧ s.minVar = some v0)) →
      (((searchLoop origins provider now s cs).1.best = none →
          s.best = none ∧ validVars (searchLoop origins provider now s cs).2 = []) ∧
       (∀ nm, (searchLoop origins provider now s cs).1.best = some nm →
          ∃ v, (searchLoop origins provider now s cs).1.minVar = some v ∧
            ((s.best = some nm ∧ s.minVar = some v ∧
                ∀ p ∈ validVars (searchLoop origins provider now s cs).2, v ≤ p.2) ∨
             (∃ l1 l2, validVars (searchLoop origins provider now s cs).2 = l1 ++ (nm, v) :: l2 ∧
                (∀ p ∈ l1, v < p.2) ∧ (∀ p ∈ l2, v ≤ p.2) ∧
                (∀ v0, s.minVar = some v0 → v < v0))))) := by
  intro cs
  induction cs with
  | nil =>
    intro s hInv
    rw [searchLoop_nil]
    refine ⟨fun h => ⟨h, rfl⟩, fun nm h => ?_⟩
    rcases hInv with ⟨hb, _⟩ | ⟨nm0, v0, hb, hv⟩
    · rw [show (s, ([] : List (Station × Option ℚ))).1 = s from rfl] at h
      rw [hb] at h; cases h
    · exact ⟨v0, hv, Or.inl ⟨h, hv, fun p hp => absurd hp (by simp [validVars])⟩⟩
  | cons c cs ih =>
    intro s hInv
    by_cases hg : ((evalCandidate origins c.id provider now s.cache s.ci).valid &&
        ((evalCandidate origins c.id provider now s.cache s.ci).times.length == origins.length))
        = true
    · by_cases hL : ltMinVar (varianceQ (evalCandidate origins c.id provider now s.cache s.ci).times)
          s.minVar = true
      · -- new running best
        rw [searchLoop_cons_best origins provider now s c cs hg hL]
        obtain ⟨ihN, ihS⟩ :=
          ih { best := some c.name,
               minVar := some (varianceQ (evalCandidate origins c.id provider now s.cache s.ci).times),
               times := (evalCandidate origins c.id provider now s.cache s.ci).times,
               routes := (evalCandidate origins c.id provider now s.cache s.ci).routes,
               cache := (evalCandidate origins c.id provider now s.cache s.ci).cache,
               ci := (evalCandidate origins c.id provider now s.cache s.ci).ci }
            (Or.inr ⟨c.name, varianceQ (evalCandidate origins c.id provider now s.cache s.ci).times,
              rfl, rfl⟩)
        constructor
        · intro h
          obtain ⟨h1, _⟩ := ihN h
          cases h1
        · intro nm h
          obtain ⟨v, hmv, hcase⟩ := ihS nm h
          refine ⟨v, hmv, Or.inr ?_⟩
          rcases hcase with ⟨hb2, hv2, hbound⟩ | ⟨l1, l2, htr, hl1, hl2, hlt2⟩
          · have hnm : c.name = nm := by simpa using hb2
            have hvv : varianceQ (evalCandidate origins c.id provider now s.cache s.ci).times = v := by
              simpa using hv2
            refine ⟨[], validVars (searchLoop origins provider now _ cs).2, ?_, by simp, hbound, ?_⟩
            · rw [validVars_cons_some, hnm, hvv, List.nil_append]
            · intro v0 hv0
              rw [hv0] at hL
              rw [← hvv]
              simpa [ltMinVar] using hL
          · refine ⟨(c.name, varianceQ (evalCandidate origins c.id provider now s.cache s.ci).times) :: l1,
              l2, ?_, ?_, hl2, ?_⟩
            · rw [validVars_cons_some, htr, List.cons_append]
            · intro p hp
              rcases List.mem_cons.mp hp with hp1 | hp1
              · rw [hp1]
                exact hlt2 (varianceQ (evalCandidate origins c.id provider now s.cache s.ci).times) rfl
              · exact hl1 p hp1
            · intro v0 hv0
              rw [hv0] at hL
              have h1 : varianceQ (evalCandidate origins c.id provider now s.cache s.ci).times < v0 := by
                simpa [ltMinVar] using hL
              exact lt_trans
                (hlt2 (varianceQ (evalCandidate origins c.id provider now s.cache s.ci).times) rfl) h1
      · -- scored but not better: state keeps best and min_variance
        rw [searchLoop_cons_keep origins provider now s c cs hg (by simpa using hL)]
        rcases hInv with ⟨hb0, hv0⟩ | ⟨nm0, v0, hb0, hv0⟩
        · rw [hv0] at hL
          exact absurd (by simp [ltMinVar] : ltMinVar
            (varianceQ (evalCandidate origins c.id provider now s.cache s.ci).times) none = true) hL
        · have hm : v0 ≤ varianceQ (evalCandidate origins c.id provider now s.cache s.ci).times := by
            rw [hv0] at hL
            exact le_of_not_lt (fun hlt => hL (by simpa [ltMinVar] using hlt))
          obtain ⟨ihN, ihS⟩ :=
            ih { s with cache := (evalCandidate origins c.id provider now s.cache s.ci).cache,
                        ci := (evalCandidate origins c.id provider now s.cache s.ci).ci }
              (Or.inr ⟨nm0, v0, hb0, hv0⟩)
          constructor
          · intro h
            obtain ⟨h1, _⟩ := ihN h
            have h1b : s.best = none := h1
            rw [h1b] at hb0; cases hb0
          · intro nm h
            obtain ⟨v, hmv, hcase⟩ := ihS nm h
            refine ⟨v, hmv, ?_⟩
            rcases hcase with ⟨hb2, hv2, hbound⟩ | ⟨l1, l2, htr, hl1, hl2, hlt2⟩
            · refine Or.inl ⟨hb2, hv2, ?_⟩
              rw [validVars_cons_some]
              intro p hp
              rcases List.mem_cons.mp hp with hp1 | hp1
              · have hveq : v = v0 := by
                  have : s.minVar = some v := hv2
                  rw [hv0] at this
                  exact (Option.some.injEq _ _ ▸ this).symm
                rw [hp1, hveq]
                exact hm
              · exact hbound p hp1
            · refine Or.inr ⟨(c.name, varianceQ (evalCandidate origins c.id provider now s.cache s.ci).times) :: l1,
                l2, ?_, ?_, hl2, hlt2⟩
              · rw [validVars_cons_some, htr, List.cons_append]
              · intro p hp
                rcases List.mem_cons.mp hp with hp1 | hp1
                · rw [hp1]
                  exact lt_of_lt_of_le (hlt2 v0 hv0) hm
                · exact hl1 p hp1
    · -- guard failed: absent trace entry, state keeps best and min_variance
      rw [searchLoop_cons_skip origins provider now s c cs (by simpa using hg)]
      obtain ⟨ihN, ihS⟩ :=
        ih { s with cache := (evalCandidate origins c.id provider now s.cache s.ci).cache,
                    ci := (evalCandidate origins c.id provider now s.cache s.ci).ci } hInv
      constructor
      · intro h
        obtain ⟨h1, h2⟩ := ihN h
        exact ⟨h1, by rw [validVars_cons_none]; exact h2⟩
      · intro nm h
        obtain ⟨v, hmv, hcase⟩ := ihS nm h
        refine ⟨v, hmv, ?_⟩
        rcases hcase with ⟨hb2, hv2, hbound⟩ | ⟨l1, l2, htr, hl1, hl2, hlt2⟩
        · exact Or.inl ⟨hb2, hv2, by rw [validVars_cons_none]; exact hbound⟩
        · exact Or.inr ⟨l1, l2, by rw [validVars_cons_none]; exact htr, hl1, hl2, hlt2⟩

/-- C7.  Among all candidates that produced a complete CandidateResult the
search keeps the one with minimum variance, ties broken in favour of the
first candidate encountered in filter order (every earlier scored candidate
is strictly worse, every later one no better), and it reports no best
station exactly when no candidate was scored. -/
theorem c7_min_variance_first_tie (origins : List String) (candidates : List Station)
    (provider : Nat → HttpOutcome) (now : Nat) (cache : Cache) :
    ((findMeetingStation origins candidates provider now cache).1.best = none →
      validVars (findMeetingStation origins candidates provider now cache).2 = []) ∧
    (∀ nm, (findMeetingStation origins candidates provider now cache).1.best = some nm →
      ∃ v l1 l2,
        (findMeetingStation origins candidates provider now cache).1.minVar = some v ∧
        validVars (findMeetingStation origins candidates provider now cache).2 =
          l1 ++ (nm, v) :: l2 ∧
        (∀ p ∈ l1, v < p.2) ∧ (∀ p ∈ l2, v ≤ p.2)) := by
  obtain ⟨hN, hS⟩ := searchLoop_selection origins provider now candidates
    { best := none, minVar := none, times := [], routes := [], cache := cache, ci := 0 }
    (Or.inl ⟨rfl, rfl⟩)
  constructor
  · intro h
    exact (hN h).2
  · intro nm h
    obtain ⟨v, hmv, hcase⟩ := hS nm h
    rcases hcase with ⟨hb, _, _⟩ | ⟨l1, l2, htr, hl1, hl2, _⟩
    · exact absurd hb (by simp)
    · exact ⟨v, l1, l2, hmv, htr, hl1, hl2⟩

theorem c7_min_variance_first_tie_witness :
    (findMeetingStation ["A", "B"] [⟨"X", "x"⟩, ⟨"Y", "y"⟩]
        (fun _ => .ok [⟨10, []⟩]) 0 []).1.best = some "X" ∧
    ∃ v l1 l2,
      (findMeetingStation ["A", "B"] [⟨"X", "x"⟩, ⟨"Y", "y"⟩]
          (fun _ => .ok [⟨10, []⟩]) 0 []).1.minVar = some v ∧
      validVars (findMeetingStation ["A", "B"] [⟨"X", "x"⟩, ⟨"Y", "y"⟩]
          (fun _ => .ok [⟨10, []⟩]) 0 []).2 = l1 ++ ("X", v) :: l2 ∧
      (∀ p ∈ l1, v < p.2) ∧ (∀ p ∈ l2, v ≤ p.2) := by
  have hb : (findMeetingStation ["A", "B"] [⟨"X", "x"⟩, ⟨"Y", "y"⟩]
      (fun _ => .ok [⟨10, []⟩]) 0 []).1.best = some "X" := by
    simp [findMeetingStation, searchLoop, evalCandidate, evalStep,
      get_travel_time_with_routes, cacheFind, cache_key, bestJourney, legToDetail,
      numChanges, cachePut, varianceQ, meanQ, ltMinVar]
  exact ⟨hb, (c7_min_variance_first_tie ["A", "B"] [⟨"X", "x"⟩, ⟨"Y", "y"⟩]
    (fun _ => .ok [⟨10, []⟩]) 0 []).2 "X" hb⟩

/-! Candidates that coincide with an origin: the self-journey rule makes
them unscorable. -/

/-- The client preserves well-formedness of the session cache: any entry it
inserts is keyed by a genuine directional pair of separator-free ids. -/
theorem fetch_goodCache (startId endId : String) (provider : Nat → HttpOutcome) (now : Nat)
    (cache : Cache) (ci r : Nat) (hg : GoodCache cache)
    (hs : sepFree startId) (he : sepFree endId) :
    GoodCache (get_travel_time_with_routes startId endId provider now cache ci r).cache := by
  rcases fetch_cache_cases startId endId provider now cache ci r with h | ⟨hne, d, rt, h⟩
  · rw [h]; exact hg
  · rw [h]
    intro ent hent
    rcases List.mem_cons.mp hent with h1 | h1
    · exact ⟨startId, endId, by rw [h1], hne, hs, he⟩
    · exact hg ent h1

/-- In a well-formed cache no key has the self-journey shape. -/
theorem cacheFind_self_none (cache : Cache) (o : String) (hg : GoodCache cache)
    (ho : sepFree o) : cacheFind (cache_key o o) cache = none := by
  cases hf : cacheFind (cache_key o o) cache with
  | none => rfl
  | some ent =>
    exfalso
    have hmem : ent ∈ cache := List.mem_of_find?_eq_some hf
    have hkey : ent.key = cache_key o o := by
      have := List.find?_some hf
      simpa using this
    obtain ⟨a, b, hk, hab, ha, hb⟩ := hg ent hmem
    rw [hk] at hkey
    obtain ⟨h1, h2⟩ := cache_key_inj a b o o ha ho hkey
    exact hab (h1.trans h2.symm)

/-- Under a well-formed cache, a fetch from a station to itself always
fails: the self check fires before any network call, and no cache entry can
mask it. -/
theorem fetch_self_fail (o : String) (provider : Nat → HttpOutcome) (now : Nat)
    (cache : Cache) (ci r : Nat) (hg : GoodCache cache) (ho : sepFree o) :
    get_travel_time_with_routes o o provider now cache ci r =
      { duration := none, route := [], cache := cache, calls := 0, sleeps := 0 } :=
  fetch_self o provider now cache ci r (cacheFind_self_none cache o hg ho)

/-- The cache after one evaluator iteration is either the incoming one or
the one produced by the iteration fetch. -/
theorem evalStep_cache_cases (destId : String) (provider : Nat → HttpOutcome) (now : Nat)
    (s : EvalSt) (o : String) :
    (evalStep destId provider now s o).cache = s.cache ∨
    (evalStep destId provider now s o).cache =
      (get_travel_time_with_routes o destId provider now s.cache s.ci 3).cache := by
  by_cases hv : s.valid = true
  · unfold evalStep
    simp only [hv, if_true]
    cases hdur : (get_travel_time_with_routes o destId provider now s.cache s.ci 3).duration with
    | none => right; simp [hdur]
    | some n =>
      cases n with
      | zero => right; simp [hdur]
      | succ d => right; simp [hdur]
  · left
    rw [evalStep_invalid _ _ _ _ _ (by simpa using hv)]

theorem evalStep_goodCache (destId : String) (provider : Nat → HttpOutcome) (now : Nat)
    (s : EvalSt) (o : String) (hg : GoodCache s.cache) (ho : sepFree o) (hd : sepFree destId) :
    GoodCache (evalStep destId provider now s o).cache := by
  rcases evalStep_cache_cases destId provider now s o with h | h
  · rw [h]; exact hg
  · rw [h]; exact fetch_goodCache o destId provider now s.cache s.ci 3 hg ho hd

theorem foldl_evalStep_goodCache (destId : String) (provider : Nat → HttpOutcome) (now : Nat) :
    ∀ (l : List String) (s : EvalSt), GoodCache s.cache → (∀ o ∈ l, sepFree o) →
      sepFree destId → GoodCache (List.foldl (evalStep destId provider now) s l).cache := by
  intro l
  induction l with
  | nil => intro s hg _ _; exact hg
  | cons o l ih =>
    intro s hg hall hd
    rw [List.foldl_cons]
    exact ih _ (evalStep_goodCache destId provider now s o hg (hall o (List.mem_cons_self _ _)) hd)
      (fun x hx => hall x (List.mem_cons_of_mem _ hx)) hd

theorem evalCandidate_goodCache (origins : List String) (destId : String)
    (provider : Nat → HttpOutcome) (now : Nat) (cache : Cache) (ci : Nat)
    (hg : GoodCache cache) (hall : ∀ o ∈ origins, sepFree o) (hd : sepFree destId) :
    GoodCache (evalCandidate origins destId provider now cache ci).cache :=
  foldl_evalStep_goodCache destId provider now origins
    { times := [], routes := [], valid := true, cache := cache, ci := ci } hg hall hd

/-- When the destination station is one of the origins, the evaluator never
ends valid: the fetch from that origin to itself fails. -/
theorem foldl_evalStep_self_invalid (destId : String) (provider : Nat → HttpOutcome) (now : Nat) :
    ∀ (l : List String) (s : EvalSt), destId ∈ l → GoodCache s.cache →
      (∀ o ∈ l, sepFree o) → sepFree destId →
      (List.foldl (evalStep destId provider now) s l).valid = false := by
  intro l
  induction l with
  | nil => intro s h; exact absurd h (List.not_mem_nil _)
  | cons o l ih =>
    intro s hmem hg hall hd
    rw [List.foldl_cons]
    by_cases hv : s.valid = true
    · by_cases heq : o = destId
      · have hfail : (get_travel_time_with_routes o destId provider now s.cache s.ci 3).duration
            = none := by
          subst heq
          rw [fetch_self_fail o provider now s.cache s.ci 3 hg hd]
        have hstep : (evalStep destId provider now s o).valid = false := by
          unfold evalStep
          simp only [hv, if_true, hfail]
        rw [foldl_evalStep_invalid _ _ _ _ _ hstep]
        exact hstep
      · rcases List.mem_cons.mp hmem with h1 | h1
        · exact absurd h1.symm heq
        · exact ih _ h1
            (evalStep_goodCache destId provider now s o hg (hall o (List.mem_cons_self _ _)) hd)
            (fun x hx => hall x (List.mem_cons_of_mem _ hx)) hd
    · rw [evalStep_invalid _ _ _ _ _ (by simpa using hv),
        foldl_evalStep_invalid _ _ _ _ _ (by simpa using hv)]
      simpa using hv

/-- Through the whole search, a candidate whose id is one of the origins is
evaluated but always yields an absent trace entry, and the winner, if any,
is a candidate whose id is not among the origins. -/
theorem searchLoop_self_candidates (origins : List String) (provider : Nat → HttpOutcome)
    (now : Nat) (hall : ∀ o ∈ origins, sepFree o) :
    ∀ (cs : List Station) (s : SolveSt), GoodCache s.cache → (∀ c ∈ cs, sepFree c.id) →
      ((∀ p ∈ (searchLoop origins provider now s cs).2, p.1.id ∈ origins → p.2 = none) ∧
       (∀ nm, (searchLoop origins provider now s cs).1.best = some nm →
          s.best = some nm ∨ ∃ c ∈ cs, c.name = nm ∧ c.id ∉ origins)) := by
  intro cs
  induction cs with
  | nil =>
    intro s _ _
    rw [searchLoop_nil]
    exact ⟨fun p hp => absurd hp (List.not_mem_nil p), fun nm h => Or.inl h⟩
  | cons c cs ih =>
    intro s hg hids
    have hgood2 : GoodCache (evalCandidate origins c.id provider now s.cache s.ci).cache :=
      evalCandidate_goodCache origins c.id provider now s.cache s.ci hg hall
        (hids c (List.mem_cons_self _ _))
    have hidtail : ∀ x ∈ cs, sepFree x.id := fun x hx => hids x (List.mem_cons_of_mem _ hx)
    by_cases hg2 : ((evalCandidate origins c.id provider now s.cache s.ci).valid &&
        ((evalCandidate origins c.id provider now s.cache s.ci).times.length == origins.length))
        = true
    · have hnotin : c.id ∉ origins := by
        intro hin
        have hinv := foldl_evalStep_self_invalid c.id provider now origins
          { times := [], routes := [], valid := true, cache := s.cache, ci := s.ci } hin hg hall
          (hids c (List.mem_cons_self _ _))
        have hvtrue : (evalCandidate origins c.id provider now s.cache s.ci).valid = true := by
          simp only [Bool.and_eq_true] at hg2
          exact hg2.1
        rw [show (evalCandidate origins c.id provider now s.cache s.ci).valid =
            (List.foldl (evalStep c.id provider now)
              { times := [], routes := [], valid := true, cache := s.cache, ci := s.ci }
              origins).valid from rfl] at hvtrue
        rw [hinv] at hvtrue
        cases hvtrue
      by_cases hlt : ltMinVar (varianceQ (evalCandidate origins c.id provider now s.cache s.ci).times)
          s.minVar = true
      · rw [searchLoop_cons_best origins provider now s c cs hg2 hlt]
        obtain ⟨ih1, ih2⟩ :=
          ih { best := some c.name,
               minVar := some (varianceQ (evalCandidate origins c.id provider now s.cache s.ci).times),
               times := (evalCandidate origins c.id provider now s.cache s.ci).times,
               routes := (evalCandidate origins c.id provider now s.cache s.ci).routes,
               cache := (evalCandidate origins c.id provider now s.cache s.ci).cache,
               ci := (evalCandidate origins c.id provider now s.cache s.ci).ci } hgood2 hidtail
        constructor
        · intro p hp hpid
          rcases List.mem_cons.mp hp with h1 | h1
          · rw [h1] at hpid
            exact absurd hpid hnotin
          · exact ih1 p h1 hpid
        · intro nm h
          rcases ih2 nm h with h1 | ⟨c2, hc2m, hname, hnot⟩
          · right
            exact ⟨c, List.mem_cons_self _ _, by simpa using h1, hnotin⟩
          · right
            exact ⟨c2, List.mem_cons_of_mem _ hc2m, hname, hnot⟩
      · rw [searchLoop_cons_keep origins provider now s c cs hg2 (by simpa using hlt)]
        obtain ⟨ih1, ih2⟩ :=
          ih { s with cache := (evalCandidate origins c.id provider now s.cache s.ci).cache,
                      ci := (evalCandidate origins c.id provider now s.cache s.ci).ci } hgood2 hidtail
        constructor
        · intro p hp hpid
          rcases List.mem_cons.mp hp with h1 | h1
          · rw [h1] at hpid
            exact absurd hpid hnotin
          · exact ih1 p h1 hpid
        · intro nm h
          rcases ih2 nm h with h1 | ⟨c2, hc2m, hname, hnot⟩
          · left; exact h1
          · right; exact ⟨c2, List.mem_cons_of_mem _ hc2m, hname, hnot⟩
    · rw [searchLoop_cons_skip origins provider now s c cs (by simpa using hg2)]
      obtain ⟨ih1, ih2⟩ :=
        ih { s with cache := (evalCandidate origins c.id provider now s.cache s.ci).cache,
                    ci := (evalCandidate origins c.id provider now s.cache s.ci).ci } hgood2 hidtail
      constructor
      · intro p hp hpid
        rcases List.mem_cons.mp hp with h1 | h1
        · rw [h1]
        · exact ih1 p h1 hpid
      · intro nm h
        rcases ih2 nm h with h1 | ⟨c2, hc2m, hname, hnot⟩
        · left; exact h1
        · right; exact ⟨c2, List.mem_cons_of_mem _ hc2m, hname, hnot⟩

/-- C1 (amended).  The evaluation phase does run the Candidate Evaluator
over every filtered candidate station, including one that coincides with an
origin; but because a fetch whose origin equals its destination fails, such
a candidate always yields an absent result, so it can never produce a
complete CandidateResult nor be selected as the winner.  The hypotheses say
that the station ids are separator-free (as all real TfL ids are) and the
starting cache is well formed, which rules out key collisions. -/
theorem c1_origin_candidate_never_wins (origins : List String) (candidates : List Station)
    (provider : Nat → HttpOutcome) (now : Nat) (cache : Cache)
    (hall : ∀ o ∈ origins, sepFree o) (hids : ∀ c ∈ candidates, sepFree c.id)
    (hg : GoodCache cache) :
    ((findMeetingStation origins candidates provider now cache).2.map Prod.fst = candidates) ∧
    (∀ p ∈ (findMeetingStation origins candidates provider now cache).2,
        p.1.id ∈ origins → p.2 = none) ∧
    (∀ nm, (findMeetingStation origins candidates provider now cache).1.best = some nm →
        ∃ c ∈ candidates, c.name = nm ∧ c.id ∉ origins) := by
  obtain ⟨h1, h2⟩ := searchLoop_self_candidates origins provider now hall candidates
    { best := none, minVar := none, times := [], routes := [], cache := cache, ci := 0 } hg hids
  refine ⟨searchLoop_trace_fst origins provider now candidates _, h1, fun nm h => ?_⟩
  rcases h2 nm h with hbad | hok
  · exact absurd hbad (by simp)
  · exact hok

theorem c1_origin_candidate_never_wins_witness :
    ((findMeetingStation ["A", "B"] [⟨"Aldgate", "A"⟩, ⟨"Cannon", "C"⟩]
        (fun _ => .ok [⟨10, [⟨"P", "Q", ["Victoria"]⟩]⟩]) 0 []).2.map Prod.fst =
      [⟨"Aldgate", "A"⟩, ⟨"Cannon", "C"⟩]) ∧
    (∀ p ∈ (findMeetingStation ["A", "B"] [⟨"Aldgate", "A"⟩, ⟨"Cannon", "C"⟩]
        (fun _ => .ok [⟨10, [⟨"P", "Q", ["Victoria"]⟩]⟩]) 0 []).2,
        p.1.id ∈ ["A", "B"] → p.2 = none) ∧
    (∀ nm, (findMeetingStation ["A", "B"] [⟨"Aldgate", "A"⟩, ⟨"Cannon", "C"⟩]
        (fun _ => .ok [⟨10, [⟨"P", "Q", ["Victoria"]⟩]⟩]) 0 []).1.best = some nm →
        ∃ c ∈ ([⟨"Aldgate", "A"⟩, ⟨"Cannon", "C"⟩] : List Station),
          c.name = nm ∧ c.id ∉ ["A", "B"]) :=
  c1_origin_candidate_never_wins ["A", "B"] [⟨"Aldgate", "A"⟩, ⟨"Cannon", "C"⟩]
    (fun _ => .ok [⟨10, [⟨"P", "Q", ["Victoria"]⟩]⟩]) 0 []
    (by decide) (by decide) (fun e he => absurd he (List.not_mem_nil e))

/-- C1 counterexample.  In a concrete solve where the provider would even
give perfectly equal ten minute journeys to every pair, the candidate whose
id equals origin A is processed by the evaluator but yields an absent
result, because the fetch from A to itself fails by the self-journey rule,
and the winner is the other candidate: an origin-coinciding candidate
cannot yield a complete CandidateResult and be selected, contradicting the
claim that the two rules can hold together. -/
theorem c1_counterexample :
    get_travel_time_with_routes "A" "A"
        (fun _ => .ok [⟨10, [⟨"P", "Q", ["Victoria"]⟩]⟩]) 0 [] 0 3 =
      { duration := none, route := [], cache := [], calls := 0, sleeps := 0 } ∧
    (findMeetingStation ["A", "B"] [⟨"Aldgate", "A"⟩, ⟨"Cannon", "C"⟩]
        (fun _ => .ok [⟨10, [⟨"P", "Q", ["Victoria"]⟩]⟩]) 0 []).2.map (fun p => (p.1.name, p.2)) =
      [("Aldgate", none), ("Cannon", some 0)] ∧
    (findMeetingStation ["A", "B"] [⟨"Aldgate", "A"⟩, ⟨"Cannon", "C"⟩]
        (fun _ => .ok [⟨10, [⟨"P", "Q", ["Victoria"]⟩]⟩]) 0 []).1.best = some "Cannon" := by
  refine ⟨by decide, ?_, ?_⟩ <;>
    simp [findMeetingStation, searchLoop, evalCandidate, evalStep,
      get_travel_time_with_routes, cacheFind, cache_key, bestJourney, legToDetail,
      numChanges, cachePut, varianceQ, meanQ, ltMinVar]
